import Mathlib

/-!
# Verification of the trading-agents pattern detectors

A shallow embedding of the two time-series pattern detectors of the
repository:

* `KangarooTailAgent` (src/agents/kangaroo_tail_agent.py): the candle-shadow
  ("kangaroo tail") reversal detector;
* `MACDDivergenceAgent` (src/agents/macd_divergence_agent.py): the
  MACD-histogram divergence detector.

Prices and ratios are embedded as exact rationals (the Python code computes
with floats; the floor constant `eps = 1e-9` is embedded as `1/10^9`).
Timestamps are embedded as integers counting nanoseconds since the epoch,
matching the resolution `pd.to_datetime` uses for integer inputs; the
`.days` field of a pandas `Timedelta` is floored division by the number of
nanoseconds per day, i.e. `Int.fdiv`.

Fallible operations (`_prepare_df`, which raises `ValueError` on a missing
mandatory column) are embedded in `Except String`.
-/

/-- One row of the bar table: a daily OHLCV record together with its `date`
value (nanoseconds since the epoch once `pd.to_datetime` has been applied). -/
structure Bar where
  date : ℤ
  open_ : ℚ
  high : ℚ
  low : ℚ
  close : ℚ
  volume : ℚ
deriving DecidableEq, Inhabited

/-- A raw input table: which of the relevant columns are present, plus the
row data.  A `Bar`'s `date` field is only meaningful when `hasDate` is
`true`; otherwise `_prepare_df` overwrites it with the positional index. -/
structure RawTable where
  hasDate : Bool
  hasOpen : Bool
  hasHigh : Bool
  hasLow : Bool
  hasClose : Bool
  hasVolume : Bool
  rows : List Bar
deriving DecidableEq, Inhabited

/-- Insert a bar into a list that is sorted ascending by `date`. -/
def insertByDate (b : Bar) : List Bar → List Bar
  | [] => [b]
  | x :: xs => if b.date ≤ x.date then b :: x :: xs else x :: insertByDate b xs

/-- `df.sort_values("date")`: sort the rows ascending by the `date` column.
(The claims only depend on the output being sorted ascending; pandas' tie
order for equal dates is unspecified anyway.) -/
def sortByDate : List Bar → List Bar
  | [] => []
  | x :: xs => insertByDate x (sortByDate xs)

/-- `df.reset_index().rename(columns={"index": "date"})`: when no `date`
column exists, the positional row index becomes the `date` value. -/
def assignDates (k : ℤ) : List Bar → List Bar
  | [] => []
  | b :: bs => { b with date := k } :: assignDates (k + 1) bs

/-- The per-column presence check of `_prepare_df`: the first missing
mandatory column among open, high, low, close, volume, if any. -/
def missingColumn (t : RawTable) : Option String :=
  if t.hasOpen = false then some "open"
  else if t.hasHigh = false then some "high"
  else if t.hasLow = false then some "low"
  else if t.hasClose = false then some "close"
  else if t.hasVolume = false then some "volume"
  else none

/-- The row-ordering step of `_prepare_df`: sort by `date` when that column
exists, otherwise date the rows positionally. -/
def orderRows (t : RawTable) : List Bar :=
  if t.hasDate then sortByDate t.rows else assignDates 0 t.rows

/-- `_prepare_df` (identical in both agent modules): order the rows, then
raise `ValueError` (here: `Except.error` carrying the column name) if a
mandatory OHLCV column is absent. -/
def prepare_df (t : RawTable) : Except String (List Bar) :=
  let rows := orderRows t
  match missingColumn t with
  | some c => Except.error c
  | none => Except.ok rows

/-- Row access `df.loc[i]` on the prepared table (out-of-range access never
happens on the paths we verify; `default` keeps the function total). -/
def nthBar (df : List Bar) (i : ℕ) : Bar := df.getD i default

/-- The `close` column of the prepared table. -/
def closeSeries (df : List Bar) : List ℚ := df.map Bar.close

/-- `eps = 1e-9`, the division-by-zero floor used by the shadow scanner. -/
def eps : ℚ := 1 / 1000000000

/-- `Series.diff().dropna()`: consecutive differences of a series. -/
def seriesDiff : List ℚ → List ℚ
  | a :: b :: rest => (b - a) :: seriesDiff (b :: rest)
  | _ => []

/-- `Series.mean()`.  For the empty series pandas returns `NaN`; every use in
the source only ever compares the mean against `0` with `<` or `>`, and both
comparisons are `False` for `NaN` exactly as they are for the junk value
`0/0 = 0` produced here, so the embedding is faithful on those paths. -/
def seriesMean (l : List ℚ) : ℚ := l.sum / (l.length : ℚ)

/-- The candle side scanned for: the `tail_type` constructor argument. -/
inductive TailType
  | lower
  | upper
deriving DecidableEq, Inhabited

/-- Configuration of `KangarooTailAgent.__init__` (the `universe` and
`fetch_window` arguments only drive the out-of-scope orchestration layer and
are omitted). -/
structure KangarooTailAgent where
  tail_type : TailType := TailType.lower
  tail_min_ratio : ℚ := 2
  body_max_ratio : ℚ := 0.35
  min_trend_days : ℕ := 3
  trend_required : Bool := true
deriving DecidableEq, Inhabited

/-- `KangarooTailAgent._is_downtrend`. -/
def KangarooTailAgent._is_downtrend (self : KangarooTailAgent)
    (prices : List ℚ) : Bool :=
  if prices.length < self.min_trend_days then false
  else decide (seriesMean (seriesDiff prices) < 0)

/-- `KangarooTailAgent._is_uptrend`. -/
def KangarooTailAgent._is_uptrend (self : KangarooTailAgent)
    (prices : List ℚ) : Bool :=
  if prices.length < self.min_trend_days then false
  else decide (seriesMean (seriesDiff prices) > 0)

/-- `body = abs(c - o)` at bar `idx`. -/
def barBody (df : List Bar) (idx : ℕ) : ℚ :=
  |(nthBar df idx).close - (nthBar df idx).open_|

/-- `upper_shadow = max(h - max(c, o), 0)` at bar `idx`. -/
def upperShadow (df : List Bar) (idx : ℕ) : ℚ :=
  max ((nthBar df idx).high - max (nthBar df idx).close (nthBar df idx).open_) 0

/-- `lower_shadow = max(min(c, o) - l, 0)` at bar `idx`. -/
def lowerShadow (df : List Bar) (idx : ℕ) : ℚ :=
  max (min (nthBar df idx).close (nthBar df idx).open_ - (nthBar df idx).low) 0

/-- `full_range = max(h - l, eps)` at bar `idx`. -/
def fullRange (df : List Bar) (idx : ℕ) : ℚ :=
  max ((nthBar df idx).high - (nthBar df idx).low) eps

/-- `recent_ranges`: the values `max(high - low, eps)` over the bars at
indices `max(0, idx - N) … idx - 1` (natural subtraction supplies the
clamping at `0`). -/
def recentRanges (self : KangarooTailAgent) (df : List Bar) (idx : ℕ) :
    List ℚ :=
  (List.range' (idx - self.min_trend_days)
      (idx - (idx - self.min_trend_days))).map
    (fun i => max ((nthBar df i).high - (nthBar df i).low) eps)

/-- `avg_range`: the mean of `recent_ranges`, or `eps` when no bar precedes
`idx`. -/
def avgRange (self : KangarooTailAgent) (df : List Bar) (idx : ℕ) : ℚ :=
  let rs := recentRanges self df idx
  if rs.length = 0 then eps else rs.sum / (rs.length : ℚ)

/-- `df["close"].iloc[max(0, idx - self.min_trend_days) : idx]`: the closes
strictly preceding `idx`, at most `min_trend_days` of them. -/
def prevCloses (self : KangarooTailAgent) (df : List Bar) (idx : ℕ) :
    List ℚ :=
  ((closeSeries df).drop (idx - self.min_trend_days)).take
    (idx - (idx - self.min_trend_days))

/-- The signal record emitted by the shadow scanner (the dict appended in
`KangarooTailAgent.detect_signals`). -/
structure KSignal where
  date : ℤ
  type : TailType
  body : ℚ
  lower_shadow : ℚ
  upper_shadow : ℚ
  full_range : ℚ
  close : ℚ
  open_ : ℚ
  idx : ℕ
deriving DecidableEq, Inhabited

/-- The body of the `for idx, row in df.iterrows()` loop of
`KangarooTailAgent.detect_signals`: the signal emitted at bar `idx`, if any.
Each `continue` of the source becomes a `none`. -/
def KangarooTailAgent.detectBar (self : KangarooTailAgent) (df : List Bar)
    (idx : ℕ) : Option KSignal :=
  let b := nthBar df idx
  let body := barBody df idx
  let upper_shadow := upperShadow df idx
  let lower_shadow := lowerShadow df idx
  let full_range := fullRange df idx
  let avg_range := avgRange self df idx
  if full_range < 2 * avg_range then none
  else if body / full_range > self.body_max_ratio then none
  else
    if self.tail_type = TailType.lower then
        if lower_shadow < self.tail_min_ratio * max body eps then none
        else if lower_shadow / full_range < 0.4 then none
        else if self.trend_required &&
            ! self._is_downtrend (prevCloses self df idx) then none
        else some { date := b.date, type := TailType.lower, body := body,
                    lower_shadow := lower_shadow, upper_shadow := upper_shadow,
                    full_range := full_range, close := b.close,
                    open_ := b.open_, idx := idx }
    else
        if upper_shadow < self.tail_min_ratio * max body eps then none
        else if upper_shadow / full_range < 0.4 then none
        else if self.trend_required &&
            ! self._is_uptrend (prevCloses self df idx) then none
        else some { date := b.date, type := TailType.upper, body := body,
                    lower_shadow := lower_shadow, upper_shadow := upper_shadow,
                    full_range := full_range, close := b.close,
                    open_ := b.open_, idx := idx }

/-- `KangarooTailAgent.detect_signals`, on the prepared (normalized) table:
scan every bar in index order, appending at most one signal per bar. -/
def KangarooTailAgent.detect_signals (self : KangarooTailAgent)
    (df : List Bar) : List KSignal :=
  (List.range df.length).filterMap (self.detectBar df)

/-- Configuration of `MACDDivergenceAgent.__init__` (again without the
orchestration-only `universe` and `fetch_window` arguments). -/
structure MACDDivergenceAgent where
  short_window : ℕ := 12
  long_window : ℕ := 26
  signal_window : ℕ := 9
  min_gap_days : ℤ := 5
deriving DecidableEq, Inhabited

/-- The recursion of `Series.ewm(span=s, adjust=False).mean()` after the
seed: `y_i = (1 - α) * y_{i-1} + α * x_i`. -/
def ewmGo (a : ℚ) (prev : ℚ) : List ℚ → List ℚ
  | [] => []
  | x :: xs => ((1 - a) * prev + a * x) :: ewmGo a ((1 - a) * prev + a * x) xs

/-- `Series.ewm(span=span, adjust=False).mean()`: exponential moving average
with smoothing factor `α = 2 / (span + 1)`, seeded at the first value. -/
def ewmMean (span : ℕ) (xs : List ℚ) : List ℚ :=
  match xs with
  | [] => []
  | x :: rest => x :: ewmGo (2 / ((span : ℚ) + 1)) x rest

/-- `MACDDivergenceAgent._calc_macd`: returns `(diff, dea, hist)`. -/
def MACDDivergenceAgent._calc_macd (self : MACDDivergenceAgent)
    (close : List ℚ) : List ℚ × List ℚ × List ℚ :=
  let ema_short := ewmMean self.short_window close
  let ema_long := ewmMean self.long_window close
  let diff := ema_short.zipWith (fun a b => a - b) ema_long
  let dea := ewmMean self.signal_window diff
  let hist := diff.zipWith (fun a b => a - b) dea
  (diff, dea, hist)

/-- `MACDDivergenceAgent._find_local_extrema`:
`scipy.signal.argrelextrema(series.values, np.less_equal / np.greater_equal,
order=order)` with the default boundary mode `clip`, which amounts to: index
`i` is flagged iff `series[i] ≤ series[j]` (resp. `≥`) for every in-range
`j ∈ [i - order, i + order]`. -/
def _find_local_extrema (series : List ℚ) (order : ℕ) (mode : String) :
    List ℕ :=
  let n := series.length
  (List.range n).filter (fun i =>
    (List.range' (i - order) (min (i + order + 1) n - (i - order))).all
      (fun j =>
        if mode = "min" then decide (series.getD i 0 ≤ series.getD j 0)
        else decide (series.getD j 0 ≤ series.getD i 0)))

/-- Nanoseconds per day: `pd.to_datetime` interprets a plain integer as a
nanosecond timestamp, so positional dates differ by this much per day. -/
def nsPerDay : ℤ := 86400000000000

/-- `(pd.to_datetime(d2) - pd.to_datetime(d1)).days` for nanosecond
timestamps: Python's `timedelta.days` floors, hence `Int.fdiv`. -/
def gapDays (d1 d2 : ℤ) : ℤ := (d2 - d1).fdiv nsPerDay

/-- The signal record emitted by the divergence scanner (the dict appended
in `MACDDivergenceAgent.detect_signals`). -/
structure MSignal where
  date : ℤ
  type : String
  price1 : ℚ
  price2 : ℚ
  macd_hist1 : ℚ
  macd_hist2 : ℚ
  idx : ℕ
deriving DecidableEq, Inhabited

/-- The MACD histogram column `df["macd_hist"]` added by `detect_signals`. -/
def histSeries (self : MACDDivergenceAgent) (df : List Bar) : List ℚ :=
  (self._calc_macd (closeSeries df)).2.2

/-- `low_idxs = self._find_local_extrema(df["close"], order=3, mode="min")`. -/
def lowIdxs (df : List Bar) : List ℕ :=
  _find_local_extrema (closeSeries df) 3 "min"

/-- `high_idxs = self._find_local_extrema(df["close"], order=3, mode="max")`. -/
def highIdxs (df : List Bar) : List ℕ :=
  _find_local_extrema (closeSeries df) 3 "max"

/-- The pairs `(idxs[i], idxs[i+1])` for `i in range(len(idxs) - 1)`:
consecutive entries of the ordered extrema list. -/
def consecutivePairs (l : List ℕ) : List (ℕ × ℕ) := l.zip l.tail

/-- The body of the two divergence loops of
`MACDDivergenceAgent.detect_signals`, for one consecutive extrema pair
`p = (idx1, idx2)`: first the calendar-gap gate, then the
price/histogram divergence test (`bullish = true` for the bottom-divergence
loop over minima, `false` for the top-divergence loop over maxima). -/
def pairSignal (self : MACDDivergenceAgent) (df : List Bar) (hist : List ℚ)
    (bullish : Bool) (p : ℕ × ℕ) : Option MSignal :=
  let date1 := (nthBar df p.1).date
  let date2 := (nthBar df p.2).date
  if gapDays date1 date2 < self.min_gap_days then none
  else
    let price1 := (nthBar df p.1).close
    let price2 := (nthBar df p.2).close
    let hist1 := hist.getD p.1 0
    let hist2 := hist.getD p.2 0
    if bullish then
      if price2 < price1 ∧ hist2 > hist1 then
        some { date := date2, type := "bullish_divergence", price1 := price1,
               price2 := price2, macd_hist1 := hist1, macd_hist2 := hist2,
               idx := p.2 }
      else none
    else
      if price2 > price1 ∧ hist2 < hist1 then
        some { date := date2, type := "bearish_divergence", price1 := price1,
               price2 := price2, macd_hist1 := hist1, macd_hist2 := hist2,
               idx := p.2 }
      else none

/-- The bottom-divergence loop of `MACDDivergenceAgent.detect_signals`. -/
def bullishSignals (self : MACDDivergenceAgent) (df : List Bar) :
    List MSignal :=
  (consecutivePairs (lowIdxs df)).filterMap
    (pairSignal self df (histSeries self df) true)

/-- The top-divergence loop of `MACDDivergenceAgent.detect_signals`. -/
def bearishSignals (self : MACDDivergenceAgent) (df : List Bar) :
    List MSignal :=
  (consecutivePairs (highIdxs df)).filterMap
    (pairSignal self df (histSeries self df) false)

/-- `MACDDivergenceAgent.detect_signals` on the prepared table: all signals
appended by the bottom-divergence loop, then all appended by the
top-divergence loop. -/
def MACDDivergenceAgent.detect_signals (self : MACDDivergenceAgent)
    (df : List Bar) : List MSignal :=
  bullishSignals self df ++ bearishSignals self df

/-- The full divergence-scan pipeline on a raw table: `_prepare_df`, then
`detect_signals`; a missing mandatory column propagates as the error. -/
def scanTable (self : MACDDivergenceAgent) (t : RawTable) :
    Except String (List MSignal) :=
  match prepare_df t with
  | Except.error e => Except.error e
  | Except.ok rows => Except.ok (self.detect_signals rows)

/-! ## Concrete instances used by witnesses and counterexamples -/

/-- A four-bar table: three quiet, strictly falling bars followed by a
candle that sits exactly on every ratio threshold of the lower-tail scan
(`full_range = 2 = 2 * avg_range`, `body/full_range = 0.2`,
`lower_shadow = 0.8 = 2 * body = 0.4 * full_range`). -/
def dfK : List Bar :=
  [ { date := 0, open_ := 10, high := 10.5, low := 9.5, close := 10, volume := 1 },
    { date := 1, open_ := 9, high := 9.5, low := 8.5, close := 9, volume := 1 },
    { date := 2, open_ := 8, high := 8.5, low := 7.5, close := 8, volume := 1 },
    { date := 3, open_ := 6.2, high := 7, low := 5, close := 5.8, volume := 1 } ]

/-- A shadow-scanner configuration with all constructor defaults. -/
def ktC : KangarooTailAgent := {}

/-- A fifteen-bar table (dates are the bar indices) whose close series
produces one bullish divergence at index 11 and one bearish divergence at
index 5 under `mdC`. -/
def dfC : List Bar :=
  [ { date := 0, open_ := 5, high := 5, low := 5, close := 5, volume := 0 },
    { date := 1, open_ := 10, high := 10, low := 10, close := 10, volume := 0 },
    { date := 2, open_ := 4, high := 4, low := 4, close := 4, volume := 0 },
    { date := 3, open_ := 7, high := 7, low := 7, close := 7, volume := 0 },
    { date := 4, open_ := 7, high := 7, low := 7, close := 7, volume := 0 },
    { date := 5, open_ := 11, high := 11, low := 11, close := 11, volume := 0 },
    { date := 6, open_ := 6, high := 6, low := 6, close := 6, volume := 0 },
    { date := 7, open_ := 8, high := 8, low := 8, close := 8, volume := 0 },
    { date := 8, open_ := 9, high := 9, low := 9, close := 9, volume := 0 },
    { date := 9, open_ := 8, high := 8, low := 8, close := 8, volume := 0 },
    { date := 10, open_ := 3, high := 3, low := 3, close := 3, volume := 0 },
    { date := 11, open_ := 1, high := 1, low := 1, close := 1, volume := 0 },
    { date := 12, open_ := 1, high := 1, low := 1, close := 1, volume := 0 },
    { date := 13, open_ := 10, high := 10, low := 10, close := 10, volume := 0 },
    { date := 14, open_ := 8, high := 8, low := 8, close := 8, volume := 0 } ]

/-- A divergence-scanner configuration with small spans (so the concrete
histogram values stay dyadic) and a zero day gap, under which every
ascending date pair passes the gap gate. -/
def mdC : MACDDivergenceAgent :=
  { short_window := 1, long_window := 3, signal_window := 3, min_gap_days := 0 }

/-- The bullish-divergence signal `mdC` emits on `dfC` (minima pair 6, 11). -/
def bullSigC : MSignal :=
  { date := 11, type := "bullish_divergence", price1 := 6, price2 := 1,
    macd_hist1 := -21/16, macd_hist2 := -2145/4096, idx := 11 }

/-- The bearish-divergence signal `mdC` emits on `dfC` (maxima pair 1, 5). -/
def bearSigC : MSignal :=
  { date := 5, type := "bearish_divergence", price1 := 10, price2 := 11,
    macd_hist1 := 5/4, macd_hist2 := 61/64, idx := 5 }

/-- A raw table with all five mandatory columns and out-of-order dates. -/
def tFull : RawTable :=
  { hasDate := true, hasOpen := true, hasHigh := true, hasLow := true,
    hasClose := true, hasVolume := true,
    rows := [ { date := 7, open_ := 1, high := 2, low := 0, close := 1, volume := 1 },
              { date := 2, open_ := 3, high := 4, low := 2, close := 3, volume := 1 } ] }

/-- A raw table whose `close` column is absent. -/
def tNoClose : RawTable :=
  { hasDate := true, hasOpen := true, hasHigh := true, hasLow := true,
    hasClose := false, hasVolume := true,
    rows := [ { date := 0, open_ := 1, high := 2, low := 0, close := 1, volume := 1 } ] }

/-- A raw table without a `date` column (all mandatory columns present). -/
def tNoDate : RawTable :=
  { hasDate := false, hasOpen := true, hasHigh := true, hasLow := true,
    hasClose := true, hasVolume := true,
    rows := [ { date := 99, open_ := 5, high := 6, low := 4, close := 5, volume := 1 },
              { date := 42, open_ := 1, high := 2, low := 0, close := 1, volume := 1 } ] }

/-! ## General lemmas about the shadow scanner -/

/-- Every signal `detectBar` emits at bar `idx` carries `idx` itself. -/
theorem detectBar_idx (self : KangarooTailAgent) (df : List Bar) :
    ∀ (idx : ℕ) (s : KSignal), self.detectBar df idx = some s → s.idx = idx := by
  intro idx s h
  simp only [KangarooTailAgent.detectBar] at h
  split_ifs at h <;>
    first
      | exact Option.noConfusion h
      | (simp only [Option.some.injEq] at h; subst h; rfl)

/-- Counting signals tagged with an out-of-range index gives zero. -/
theorem countP_idx_zero (f : ℕ → Option KSignal)
    (hf : ∀ j s, f j = some s → s.idx = j) (n i : ℕ) (hn : n ≤ i) :
    ((List.range n).filterMap f).countP (fun s => s.idx == i) = 0 := by
  rw [List.countP_eq_zero]
  intro s hs
  rcases List.mem_filterMap.mp hs with ⟨j, hj, hfs⟩
  have hji := hf j s hfs
  have hj' : j < n := List.mem_range.mp hj
  simp only [beq_iff_eq, hji]
  omega

/-- The number of signals the scan tags with an in-range index `i` is `1` or
`0` according to whether the per-bar scan fires at `i`. -/
theorem countP_idx_filterMap_range (f : ℕ → Option KSignal)
    (hf : ∀ j s, f j = some s → s.idx = j) (n i : ℕ) (hi : i < n) :
    ((List.range n).filterMap f).countP (fun s => s.idx == i) =
      if (f i).isSome then 1 else 0 := by
  induction n with
  | zero => omega
  | succ m ih =>
    rw [List.range_succ, List.filterMap_append, List.countP_append]
    by_cases him : i < m
    · rw [ih him]
      cases h : f m with
      | none => simp [h]
      | some s =>
        have hsm := hf m s h
        simp only [List.filterMap_cons, List.filterMap_nil, h,
          List.countP_cons, List.countP_nil, beq_iff_eq, hsm]
        have : ¬ (m = i) := by omega
        simp [this]
    · have him' : i = m := by omega
      subst him'
      rw [countP_idx_zero f hf i i le_rfl]
      cases h : f i with
      | none => simp [h]
      | some s => simp [h, hf i s h]

/-- On the lower side, the per-bar scan fires iff the four gates hold with
inclusive thresholds (and a strict trend test). -/
theorem detectBar_isSome_lower (self : KangarooTailAgent) (df : List Bar)
    (idx : ℕ) (hside : self.tail_type = TailType.lower) :
    (self.detectBar df idx).isSome = true ↔
      (2 * avgRange self df idx ≤ fullRange df idx ∧
       barBody df idx / fullRange df idx ≤ self.body_max_ratio ∧
       self.tail_min_ratio * max (barBody df idx) eps ≤ lowerShadow df idx ∧
       (0.4 : ℚ) ≤ lowerShadow df idx / fullRange df idx ∧
       (self.trend_required = true →
         self._is_downtrend (prevCloses self df idx) = true)) := by
  simp only [KangarooTailAgent.detectBar, hside]
  split_ifs with h1 h2 h3 h4 h5 <;>
    simp_all [not_lt, Bool.and_eq_true, Bool.not_eq_true']

/-- With fewer preceding closes than `min_trend_days`, the trend window is
too short and `_is_downtrend` fails closed. -/
theorem is_downtrend_short (self : KangarooTailAgent) (prices : List ℚ)
    (h : prices.length < self.min_trend_days) :
    self._is_downtrend prices = false := by
  simp [KangarooTailAgent._is_downtrend, h]

/-- With fewer preceding closes than `min_trend_days`, `_is_uptrend` fails
closed. -/
theorem is_uptrend_short (self : KangarooTailAgent) (prices : List ℚ)
    (h : prices.length < self.min_trend_days) :
    self._is_uptrend prices = false := by
  simp [KangarooTailAgent._is_uptrend, h]

/-- At an index with fewer than `min_trend_days` preceding bars, the sliced
window of preceding closes is shorter than `min_trend_days`. -/
theorem prevCloses_length_lt (self : KangarooTailAgent) (df : List Bar)
    (i : ℕ) (hi : i < self.min_trend_days) :
    (prevCloses self df i).length < self.min_trend_days := by
  have h1 : (prevCloses self df i).length ≤ i - (i - self.min_trend_days) :=
    le_trans (List.length_take_le _ _) le_rfl
  omega

/-- When the trend is required but the preceding window is too short, the
per-bar scan cannot fire. -/
theorem detectBar_none_of_short_window (self : KangarooTailAgent)
    (df : List Bar) (i : ℕ) (ht : self.trend_required = true)
    (hi : i < self.min_trend_days) : self.detectBar df i = none := by
  have hd : self._is_downtrend (prevCloses self df i) = false :=
    is_downtrend_short self _ (prevCloses_length_lt self df i hi)
  have hu : self._is_uptrend (prevCloses self df i) = false :=
    is_uptrend_short self _ (prevCloses_length_lt self df i hi)
  simp only [KangarooTailAgent.detectBar]
  split_ifs <;> first | rfl | simp_all

/-- C1: on a normalized series scanned with `tail_type = lower`, the shadow
scanner emits exactly one signal at an in-range bar index `i` iff all four
gates hold — `full_range ≥ 2·avg_range`, `body/full_range ≤ body_max_ratio`,
`lower_shadow ≥ tail_min_ratio·max(body, eps)` together with
`lower_shadow/full_range ≥ 0.4`, and (when `trend_required`) the strict
downtrend test on the preceding closes; every ratio threshold is inclusive,
so a bar exactly at a threshold passes. -/
theorem c1_lower_tail_signal_iff_gates (self : KangarooTailAgent)
    (df : List Bar) (i : ℕ) (hside : self.tail_type = TailType.lower)
    (hi : i < df.length) :
    (self.detect_signals df).countP (fun s => s.idx == i) =
      (if 2 * avgRange self df i ≤ fullRange df i ∧
          barBody df i / fullRange df i ≤ self.body_max_ratio ∧
          self.tail_min_ratio * max (barBody df i) eps ≤ lowerShadow df i ∧
          (0.4 : ℚ) ≤ lowerShadow df i / fullRange df i ∧
          (self.trend_required = true →
            self._is_downtrend (prevCloses self df i) = true)
       then 1 else 0) := by
  rw [KangarooTailAgent.detect_signals,
    countP_idx_filterMap_range _ (detectBar_idx self df) _ _ hi]
  by_cases hC : 2 * avgRange self df i ≤ fullRange df i ∧
      barBody df i / fullRange df i ≤ self.body_max_ratio ∧
      self.tail_min_ratio * max (barBody df i) eps ≤ lowerShadow df i ∧
      (0.4 : ℚ) ≤ lowerShadow df i / fullRange df i ∧
      (self.trend_required = true →
        self._is_downtrend (prevCloses self df i) = true)
  · rw [if_pos ((detectBar_isSome_lower self df i hside).mpr hC), if_pos hC]
  · rw [if_neg (fun h => hC ((detectBar_isSome_lower self df i hside).mp h)),
      if_neg hC]

/-- Witness for C1: on `dfK`, whose final bar sits exactly on every ratio
threshold, the scan emits exactly one signal at index 3. -/
theorem c1_witness :
    ktC.tail_type = TailType.lower ∧ 3 < dfK.length ∧
    (KangarooTailAgent.detect_signals ktC dfK).countP (fun s => s.idx == 3) = 1 :=
  ⟨rfl, by norm_num [dfK],
    (c1_lower_tail_signal_iff_gates ktC dfK 3 rfl (by norm_num [dfK])).trans
      (if_pos (by
        refine ⟨?_, ?_, ?_, ?_, fun _ => ?_⟩ <;>
          norm_num [avgRange, recentRanges, fullRange, barBody, lowerShadow,
            nthBar, dfK, ktC, eps, List.range', KangarooTailAgent._is_downtrend,
            prevCloses, closeSeries, seriesDiff, seriesMean, abs_of_nonneg]))⟩

/-- C5: with `trend_required` on and fewer than `min_trend_days` closes
preceding index `i`, the scan emits no signal at `i`; the embedded scan is a
total function, so the bar is skipped rather than raising. -/
theorem c5_short_history_no_signal (self : KangarooTailAgent) (df : List Bar)
    (i : ℕ) (ht : self.trend_required = true)
    (hi : i < self.min_trend_days) :
    (self.detect_signals df).countP (fun s => s.idx == i) = 0 := by
  rw [KangarooTailAgent.detect_signals]
  by_cases hn : i < df.length
  · rw [countP_idx_filterMap_range _ (detectBar_idx self df) _ _ hn,
      detectBar_none_of_short_window self df i ht hi]
    rfl
  · exact countP_idx_zero _ (detectBar_idx self df) _ _ (le_of_not_lt hn)

/-- Witness for C5: at index 1 of `dfK` only one close precedes the bar, so
nothing is emitted there. -/
theorem c5_witness :
    ktC.trend_required = true ∧ 1 < ktC.min_trend_days ∧
    (KangarooTailAgent.detect_signals ktC dfK).countP (fun s => s.idx == 1) = 0 :=
  ⟨rfl, by decide, c5_short_history_no_signal ktC dfK 1 rfl (by decide)⟩

/-- `seriesDiff` of a nonempty series has one fewer entry. -/
theorem seriesDiff_length (a : ℚ) (l : List ℚ) :
    (seriesDiff (a :: l)).length = l.length := by
  induction l generalizing a with
  | nil => rfl
  | cons b t ih => simp [seriesDiff, ih b]

/-- The sum of consecutive differences telescopes to last minus first. -/
theorem seriesDiff_sum (a : ℚ) (l : List ℚ) :
    (seriesDiff (a :: l)).sum = l.getLastD a - a := by
  induction l generalizing a with
  | nil => simp [seriesDiff]
  | cons b t ih =>
    show ((b - a) :: seriesDiff (b :: t)).sum = (b :: t).getLastD a - a
    rw [List.sum_cons, ih b, List.getLastD_cons]
    ring

/-- C10: over a window of exactly `min_trend_days ≥ 2` closes, the mean of
consecutive differences telescopes, so `_is_downtrend` holds iff the last
close of the window is strictly below the first (and `_is_uptrend` iff
strictly above); intermediate closes never matter. -/
theorem c10_trend_tests_telescope (self : KangarooTailAgent) (p0 : ℚ)
    (rest : List ℚ) (hlen : (p0 :: rest).length = self.min_trend_days)
    (h2 : 2 ≤ self.min_trend_days) :
    (self._is_downtrend (p0 :: rest) = true ↔ rest.getLastD p0 < p0) ∧
    (self._is_uptrend (p0 :: rest) = true ↔ p0 < rest.getLastD p0) := by
  have hnotlt : ¬ ((p0 :: rest).length < self.min_trend_days) := by omega
  have hrest : 1 ≤ rest.length := by
    simp only [List.length_cons] at hlen
    omega
  have hpos : (0:ℚ) < ((seriesDiff (p0 :: rest)).length : ℚ) := by
    rw [seriesDiff_length]
    exact_mod_cast hrest
  constructor
  · rw [KangarooTailAgent._is_downtrend, if_neg hnotlt, decide_eq_true_eq,
      seriesMean, div_lt_iff₀ hpos, zero_mul, seriesDiff_sum, sub_neg]
  · rw [KangarooTailAgent._is_uptrend, if_neg hnotlt, decide_eq_true_eq,
      gt_iff_lt, seriesMean, lt_div_iff₀ hpos, zero_mul, seriesDiff_sum,
      sub_pos]

/-- Witness for C10 on the window `[10, 9, 8]` with the default
three-day trend window. -/
theorem c10_witness :
    ([10, 9, 8] : List ℚ).length = ktC.min_trend_days ∧
    2 ≤ ktC.min_trend_days ∧
    ((ktC._is_downtrend (10 :: [9, 8]) = true ↔
        ([9, 8] : List ℚ).getLastD 10 < 10) ∧
     (ktC._is_uptrend (10 :: [9, 8]) = true ↔
        10 < ([9, 8] : List ℚ).getLastD 10)) :=
  ⟨by decide, by decide, c10_trend_tests_telescope ktC 10 [9, 8] (by decide) (by decide)⟩

/-- C8: both detectors are pure functions of the prepared table and the
configuration: equal inputs give identical signal lists. -/
theorem c8_detectors_deterministic (kt kt' : KangarooTailAgent)
    (md md' : MACDDivergenceAgent) (df df' : List Bar)
    (hkt : kt = kt') (hmd : md = md') (hdf : df = df') :
    kt.detect_signals df = kt'.detect_signals df' ∧
    md.detect_signals df = md'.detect_signals df' := by
  subst hkt; subst hmd; subst hdf
  exact ⟨rfl, rfl⟩

/-- Witness for C8 at the concrete configurations and tables. -/
theorem c8_witness :
    KangarooTailAgent.detect_signals ktC dfK =
      KangarooTailAgent.detect_signals ktC dfK ∧
    MACDDivergenceAgent.detect_signals mdC dfK =
      MACDDivergenceAgent.detect_signals mdC dfK :=
  c8_detectors_deterministic ktC ktC mdC mdC dfK dfK rfl rfl rfl

/-- C6: because the fast EMA, the slow EMA and the signal line are each
seeded at their first input value, `diff[0] = 0`, `signal_line[0] = diff[0]`
and the histogram at index 0 equals 0 on every non-empty close series. -/
theorem c6_histogram_seeded_at_zero (self : MACDDivergenceAgent) (c0 : ℚ)
    (rest : List ℚ) :
    (self._calc_macd (c0 :: rest)).1.head? = some 0 ∧
    (self._calc_macd (c0 :: rest)).2.1.head? = some 0 ∧
    (self._calc_macd (c0 :: rest)).2.2.head? = some 0 := by
  simp [MACDDivergenceAgent._calc_macd, ewmMean, sub_self]

/-- Membership after `insertByDate`: the new bar or an old one. -/
theorem mem_insertByDate (b y : Bar) (l : List Bar)
    (h : y ∈ insertByDate b l) : y = b ∨ y ∈ l := by
  induction l with
  | nil => simpa [insertByDate] using h
  | cons x xs ih =>
    rw [insertByDate] at h
    by_cases hb : b.date ≤ x.date
    · rw [if_pos hb] at h
      rcases List.mem_cons.mp h with h1 | h2
      · exact Or.inl h1
      · exact Or.inr h2
    · rw [if_neg hb] at h
      rcases List.mem_cons.mp h with h1 | h2
      · exact Or.inr (h1 ▸ List.mem_cons_self x xs)
      · rcases ih h2 with h3 | h4
        · exact Or.inl h3
        · exact Or.inr (List.mem_cons_of_mem x h4)

/-- `insertByDate` keeps a date-sorted list date-sorted. -/
theorem insertByDate_sorted (b : Bar) (l : List Bar)
    (h : l.Pairwise (fun x y => x.date ≤ y.date)) :
    (insertByDate b l).Pairwise (fun x y => x.date ≤ y.date) := by
  induction l with
  | nil => simp [insertByDate]
  | cons x xs ih =>
    rw [insertByDate]
    rcases List.pairwise_cons.mp h with ⟨hx, hxs⟩
    by_cases hb : b.date ≤ x.date
    · rw [if_pos hb]
      refine List.pairwise_cons.mpr ⟨?_, h⟩
      intro y hy
      rcases List.mem_cons.mp hy with h1 | h2
      · exact h1 ▸ hb
      · exact le_trans hb (hx y h2)
    · rw [if_neg hb]
      refine List.pairwise_cons.mpr ⟨?_, ih hxs⟩
      intro y hy
      rcases mem_insertByDate b y xs hy with h1 | h2
      · exact h1 ▸ le_of_not_le hb
      · exact hx y h2

/-- `sortByDate` sorts ascending by date. -/
theorem sortByDate_sorted (l : List Bar) :
    (sortByDate l).Pairwise (fun x y => x.date ≤ y.date) := by
  induction l with
  | nil => simp [sortByDate]
  | cons x xs ih => exact insertByDate_sorted x (sortByDate xs) ih

/-- Positional dates start at the assigned base. -/
theorem assignDates_date_ge (k : ℤ) (l : List Bar) :
    ∀ y ∈ assignDates k l, k ≤ y.date := by
  induction l generalizing k with
  | nil => simp [assignDates]
  | cons b bs ih =>
    intro y hy
    rw [assignDates] at hy
    rcases List.mem_cons.mp hy with h1 | h2
    · rw [h1]
    · exact le_trans (by omega) (ih (k + 1) y h2)

/-- Positional dating produces an ascending date column. -/
theorem assignDates_sorted (k : ℤ) (l : List Bar) :
    (assignDates k l).Pairwise (fun x y => x.date ≤ y.date) := by
  induction l generalizing k with
  | nil => simp [assignDates]
  | cons b bs ih =>
    rw [assignDates]
    refine List.pairwise_cons.mpr ⟨?_, ih (k + 1)⟩
    intro y hy
    have h2 := assignDates_date_ge (k + 1) bs y hy
    show ({ b with date := k } : Bar).date ≤ y.date
    simp only []
    omega

/-- Whatever branch the normalizer takes, the ordered rows are sorted
ascending by date. -/
theorem orderRows_sorted (t : RawTable) :
    (orderRows t).Pairwise (fun x y => x.date ≤ y.date) := by
  rw [orderRows]
  by_cases hd : t.hasDate = true
  · rw [if_pos hd]
    exact sortByDate_sorted t.rows
  · rw [if_neg hd]
    exact assignDates_sorted 0 t.rows

/-- C3: the normalizer raises `SchemaError` iff one of the mandatory columns
open, high, low, close, volume is absent; with all five present it returns
the rows sorted ascending by timestamp without raising. -/
theorem c3_schema_error_iff_missing_column (t : RawTable) :
    ((∃ e, prepare_df t = Except.error e) ↔
      ¬ (t.hasOpen = true ∧ t.hasHigh = true ∧ t.hasLow = true ∧
         t.hasClose = true ∧ t.hasVolume = true)) ∧
    ((t.hasOpen = true ∧ t.hasHigh = true ∧ t.hasLow = true ∧
      t.hasClose = true ∧ t.hasVolume = true) →
      ∃ rows, prepare_df t = Except.ok rows ∧
        rows.Pairwise (fun a b => a.date ≤ b.date)) := by
  obtain ⟨d, o, h, l, c, v, rows⟩ := t
  cases o <;> cases h <;> cases l <;> cases c <;> cases v <;>
    simp [prepare_df, missingColumn, orderRows_sorted]

/-- Witness for C3: the complete table `tFull` normalizes to a sorted
series; the table `tNoClose` (missing `close`) errors out. -/
theorem c3_witness :
    (∃ rows, prepare_df tFull = Except.ok rows ∧
      rows.Pairwise (fun a b => a.date ≤ b.date)) ∧
    (∃ e, prepare_df tNoClose = Except.error e) :=
  ⟨(c3_schema_error_iff_missing_column tFull).2 ⟨rfl, rfl, rfl, rfl, rfl⟩,
   ((c3_schema_error_iff_missing_column tNoClose).1).mpr (by simp [tNoClose])⟩

/-! ## General lemmas about the divergence scanner -/

/-- The extrema list is strictly increasing (it filters `range`). -/
theorem extrema_pairwise_lt (s : List ℚ) (o : ℕ) (m : String) :
    (_find_local_extrema s o m).Pairwise (· < ·) := by
  rw [_find_local_extrema]
  exact (List.pairwise_lt_range s.length).filter _

/-- Extrema indices are in range. -/
theorem extrema_mem_lt (s : List ℚ) (o : ℕ) (m : String) (i : ℕ)
    (h : i ∈ _find_local_extrema s o m) : i < s.length := by
  rw [_find_local_extrema] at h
  exact List.mem_range.mp (List.mem_filter.mp h).1

/-- Entries of a strictly increasing list increase with their position. -/
theorem get?_lt_of_pairwise_lt {l : List ℕ} (hp : l.Pairwise (· < ·))
    {i j a b : ℕ} (hij : i < j) (ha : l.get? i = some a)
    (hb : l.get? j = some b) : a < b := by
  rw [List.get?_eq_getElem?] at ha hb
  have hj : j < l.length := by
    by_contra hc
    simp [List.getElem?_eq_none (le_of_not_lt hc)] at hb
  have hi : i < l.length := lt_trans hij hj
  rw [List.getElem?_eq_getElem hi] at ha
  rw [List.getElem?_eq_getElem hj] at hb
  have hlt := List.pairwise_iff_get.mp hp ⟨i, hi⟩ ⟨j, hj⟩ hij
  have ha' : l[i] = a := Option.some_inj.mp ha
  have hb' : l[j] = b := Option.some_inj.mp hb
  subst ha'
  subst hb'
  simpa using hlt

/-- Positions in a strictly increasing list are determined by the entry. -/
theorem get?_inj_of_pairwise_lt {l : List ℕ} (hp : l.Pairwise (· < ·))
    {i j a : ℕ} (ha : l.get? i = some a) (hb : l.get? j = some a) : i = j := by
  rcases lt_trichotomy i j with h | h | h
  · exact absurd (get?_lt_of_pairwise_lt hp h ha hb) (lt_irrefl a)
  · exact h
  · exact absurd (get?_lt_of_pairwise_lt hp h hb ha) (lt_irrefl a)

/-- A pair belongs to `l.zip l.tail` iff its components sit at consecutive
positions of `l`. -/
theorem mem_zip_tail_iff {l : List ℕ} {p : ℕ × ℕ} :
    p ∈ l.zip l.tail ↔
      ∃ k, l.get? k = some p.1 ∧ l.get? (k + 1) = some p.2 := by
  rw [List.mem_iff_get?]
  constructor
  · rintro ⟨k, hk⟩
    rw [List.get?_eq_getElem?] at hk
    have hk' : (l.zip l.tail)[k]? = some (p.1, p.2) := hk
    obtain ⟨h1, h2⟩ := List.getElem?_zip_eq_some.mp hk'
    rw [List.getElem?_tail] at h2
    exact ⟨k, by rw [List.get?_eq_getElem?]; exact h1,
      by rw [List.get?_eq_getElem?]; exact h2⟩
  · rintro ⟨k, h1, h2⟩
    rw [List.get?_eq_getElem?] at h1 h2
    refine ⟨k, ?_⟩
    rw [List.get?_eq_getElem?]
    have : (l.zip l.tail)[k]? = some (p.1, p.2) :=
      List.getElem?_zip_eq_some.mpr ⟨h1, by rw [List.getElem?_tail]; exact h2⟩
    simpa using this

/-- The bottom-divergence branch as one gate conjunction. -/
theorem pairSignal_bull_eq (self : MACDDivergenceAgent) (df : List Bar)
    (hist : List ℚ) (p : ℕ × ℕ) :
    pairSignal self df hist true p =
      if self.min_gap_days ≤ gapDays (nthBar df p.1).date (nthBar df p.2).date ∧
         (nthBar df p.2).close < (nthBar df p.1).close ∧
         hist.getD p.1 0 < hist.getD p.2 0
      then some { date := (nthBar df p.2).date, type := "bullish_divergence",
                  price1 := (nthBar df p.1).close,
                  price2 := (nthBar df p.2).close,
                  macd_hist1 := hist.getD p.1 0,
                  macd_hist2 := hist.getD p.2 0, idx := p.2 }
      else none := by
  simp only [pairSignal, if_true]
  by_cases h1 : gapDays (nthBar df p.1).date (nthBar df p.2).date < self.min_gap_days
  · rw [if_pos h1, if_neg (fun hc => absurd hc.1 (not_le.mpr h1))]
  · rw [if_neg h1]
    by_cases h2 : (nthBar df p.2).close < (nthBar df p.1).close ∧
        hist.getD p.2 0 > hist.getD p.1 0
    · rw [if_pos h2, if_pos ⟨not_lt.mp h1, h2.1, h2.2⟩]
    · rw [if_neg h2, if_neg (fun hc => h2 ⟨hc.2.1, hc.2.2⟩)]

/-- The top-divergence branch as one gate conjunction. -/
theorem pairSignal_bear_eq (self : MACDDivergenceAgent) (df : List Bar)
    (hist : List ℚ) (p : ℕ × ℕ) :
    pairSignal self df hist false p =
      if self.min_gap_days ≤ gapDays (nthBar df p.1).date (nthBar df p.2).date ∧
         (nthBar df p.1).close < (nthBar df p.2).close ∧
         hist.getD p.2 0 < hist.getD p.1 0
      then some { date := (nthBar df p.2).date, type := "bearish_divergence",
                  price1 := (nthBar df p.1).close,
                  price2 := (nthBar df p.2).close,
                  macd_hist1 := hist.getD p.1 0,
                  macd_hist2 := hist.getD p.2 0, idx := p.2 }
      else none := by
  simp only [pairSignal, Bool.false_eq_true, if_false]
  by_cases h1 : gapDays (nthBar df p.1).date (nthBar df p.2).date < self.min_gap_days
  · rw [if_pos h1, if_neg (fun hc => absurd hc.1 (not_le.mpr h1))]
  · rw [if_neg h1]
    by_cases h2 : (nthBar df p.2).close > (nthBar df p.1).close ∧
        hist.getD p.2 0 < hist.getD p.1 0
    · rw [if_pos h2, if_pos ⟨not_lt.mp h1, h2.1, h2.2⟩]
    · rw [if_neg h2, if_neg (fun hc => h2 ⟨hc.2.1, hc.2.2⟩)]

/-- Inversion of a fired bottom-divergence pair: the gates passed and the
emitted record carries the pair's data. -/
theorem pairSignal_some_bull {self : MACDDivergenceAgent} {df : List Bar}
    {hist : List ℚ} {p : ℕ × ℕ} {s : MSignal}
    (h : pairSignal self df hist true p = some s) :
    self.min_gap_days ≤ gapDays (nthBar df p.1).date (nthBar df p.2).date ∧
    (nthBar df p.2).close < (nthBar df p.1).close ∧
    hist.getD p.1 0 < hist.getD p.2 0 ∧
    s = { date := (nthBar df p.2).date, type := "bullish_divergence",
          price1 := (nthBar df p.1).close, price2 := (nthBar df p.2).close,
          macd_hist1 := hist.getD p.1 0, macd_hist2 := hist.getD p.2 0,
          idx := p.2 } := by
  rw [pairSignal_bull_eq] at h
  split_ifs at h with hc
  exact ⟨hc.1, hc.2.1, hc.2.2, (Option.some_inj.mp h).symm⟩

/-- Inversion of a fired top-divergence pair. -/
theorem pairSignal_some_bear {self : MACDDivergenceAgent} {df : List Bar}
    {hist : List ℚ} {p : ℕ × ℕ} {s : MSignal}
    (h : pairSignal self df hist false p = some s) :
    self.min_gap_days ≤ gapDays (nthBar df p.1).date (nthBar df p.2).date ∧
    (nthBar df p.1).close < (nthBar df p.2).close ∧
    hist.getD p.2 0 < hist.getD p.1 0 ∧
    s = { date := (nthBar df p.2).date, type := "bearish_divergence",
          price1 := (nthBar df p.1).close, price2 := (nthBar df p.2).close,
          macd_hist1 := hist.getD p.1 0, macd_hist2 := hist.getD p.2 0,
          idx := p.2 } := by
  rw [pairSignal_bear_eq] at h
  split_ifs at h with hc
  exact ⟨hc.1, hc.2.1, hc.2.2, (Option.some_inj.mp h).symm⟩

/-- `_find_local_extrema` in mode `"min"`, with the comparator resolved. -/
theorem find_extrema_min (s : List ℚ) (o : ℕ) :
    _find_local_extrema s o "min" = (List.range s.length).filter (fun i =>
      (List.range' (i - o) (min (i + o + 1) s.length - (i - o))).all
        (fun j => decide (s.getD i 0 ≤ s.getD j 0))) := by
  simp [_find_local_extrema]

/-- `_find_local_extrema` in mode `"max"`, with the comparator resolved. -/
theorem find_extrema_max (s : List ℚ) (o : ℕ) :
    _find_local_extrema s o "max" = (List.range s.length).filter (fun i =>
      (List.range' (i - o) (min (i + o + 1) s.length - (i - o))).all
        (fun j => decide (s.getD j 0 ≤ s.getD i 0))) := by
  simp [_find_local_extrema]

/-- The MACD histogram of `dfC` under `mdC`, computed exactly. -/
theorem histC : histSeries mdC dfC =
    [0, 5/4, -3/2, 7/16, 1/16, 61/64, -21/16, 51/256, 71/256, -279/1024,
     -687/512, -2145/4096, 1277/4096, 44117/16384, -277/2048] := by
  norm_num [histSeries, MACDDivergenceAgent._calc_macd, closeSeries, dfC, mdC,
    ewmMean, ewmGo, List.zipWith]

/-- The local minima of `dfC`'s close series. -/
theorem lowC : lowIdxs dfC = [2, 6, 11, 12] := by
  rw [lowIdxs, find_extrema_min]
  norm_num [closeSeries, dfC, List.range_succ, List.range']

/-- The local maxima of `dfC`'s close series. -/
theorem highC : highIdxs dfC = [1, 5, 13] := by
  rw [highIdxs, find_extrema_max]
  norm_num [closeSeries, dfC, List.range_succ, List.range']

/-- The divergence scan of `dfC` under `mdC`: the bullish signal at
index 11 followed by the bearish signal at index 5. -/
theorem detectC :
    MACDDivergenceAgent.detect_signals mdC dfC = [bullSigC, bearSigC] := by
  have g1 : gapDays 2 6 = 0 := by decide
  have g2 : gapDays 6 11 = 0 := by decide
  have g3 : gapDays 11 12 = 0 := by decide
  have g4 : gapDays 1 5 = 0 := by decide
  have g5 : gapDays 5 13 = 0 := by decide
  rw [MACDDivergenceAgent.detect_signals, bullishSignals, bearishSignals,
    lowC, highC, histC]
  norm_num [consecutivePairs, pairSignal, nthBar, dfC, mdC, List.zip,
    List.filterMap_cons, g1, g2, g3, g4, g5, bullSigC, bearSigC]

/-- Signals of the bullish pass are typed `bullish_divergence`. -/
theorem mem_bullish_type (self : MACDDivergenceAgent) (df : List Bar)
    (s : MSignal) (h : s ∈ bullishSignals self df) :
    s.type = "bullish_divergence" := by
  rcases List.mem_filterMap.mp h with ⟨p, _, hp⟩
  obtain ⟨_, _, _, rfl⟩ := pairSignal_some_bull hp
  rfl

/-- Signals of the bearish pass are typed `bearish_divergence`. -/
theorem mem_bearish_type (self : MACDDivergenceAgent) (df : List Bar)
    (s : MSignal) (h : s ∈ bearishSignals self df) :
    s.type = "bearish_divergence" := by
  rcases List.mem_filterMap.mp h with ⟨p, _, hp⟩
  obtain ⟨_, _, _, rfl⟩ := pairSignal_some_bear hp
  rfl

/-- The bullish pass lists indices in strictly ascending order. -/
theorem bullishSignals_sorted (self : MACDDivergenceAgent) (df : List Bar) :
    (bullishSignals self df).Pairwise (fun a b => a.idx < b.idx) := by
  rw [bullishSignals, List.pairwise_filterMap]
  have hl : (lowIdxs df).Pairwise (· < ·) := extrema_pairwise_lt _ _ _
  have hmap : ((lowIdxs df).zip (lowIdxs df).tail).map Prod.snd =
      (lowIdxs df).tail :=
    List.map_snd_zip _ _ (by cases lowIdxs df <;> simp)
  have h1 : (((lowIdxs df).zip (lowIdxs df).tail).map Prod.snd).Pairwise
      (· < ·) := by
    rw [hmap]; exact hl.tail
  have hp : (consecutivePairs (lowIdxs df)).Pairwise
      (fun p q => p.2 < q.2) := by
    rw [consecutivePairs]; exact List.pairwise_map.mp h1
  refine hp.imp ?_
  intro p q hpq b hb b' hb'
  obtain ⟨_, _, _, rfl⟩ := pairSignal_some_bull (Option.mem_def.mp hb)
  obtain ⟨_, _, _, rfl⟩ := pairSignal_some_bull (Option.mem_def.mp hb')
  simpa using hpq

/-- The bearish pass lists indices in strictly ascending order. -/
theorem bearishSignals_sorted (self : MACDDivergenceAgent) (df : List Bar) :
    (bearishSignals self df).Pairwise (fun a b => a.idx < b.idx) := by
  rw [bearishSignals, List.pairwise_filterMap]
  have hl : (highIdxs df).Pairwise (· < ·) := extrema_pairwise_lt _ _ _
  have hmap : ((highIdxs df).zip (highIdxs df).tail).map Prod.snd =
      (highIdxs df).tail :=
    List.map_snd_zip _ _ (by cases highIdxs df <;> simp)
  have h1 : (((highIdxs df).zip (highIdxs df).tail).map Prod.snd).Pairwise
      (· < ·) := by
    rw [hmap]; exact hl.tail
  have hp : (consecutivePairs (highIdxs df)).Pairwise
      (fun p q => p.2 < q.2) := by
    rw [consecutivePairs]; exact List.pairwise_map.mp h1
  refine hp.imp ?_
  intro p q hpq b hb b' hb'
  obtain ⟨_, _, _, rfl⟩ := pairSignal_some_bear (Option.mem_def.mp hb)
  obtain ⟨_, _, _, rfl⟩ := pairSignal_some_bear (Option.mem_def.mp hb')
  simpa using hpq

/-- The shadow scanner's pass lists indices in strictly ascending order. -/
theorem kangaroo_sorted (self : KangarooTailAgent) (df : List Bar) :
    (self.detect_signals df).Pairwise (fun a b => a.idx < b.idx) := by
  rw [KangarooTailAgent.detect_signals, List.pairwise_filterMap]
  refine (List.pairwise_lt_range df.length).imp ?_
  intro i j hij b hb b' hb'
  rw [detectBar_idx self df i b (Option.mem_def.mp hb),
    detectBar_idx self df j b' (Option.mem_def.mp hb')]
  exact hij

/-- C4 (amended): the shadow scanner's pass is sorted ascending by bar
index; the divergence scanner's pass consists of all bullish signals in
ascending index order followed by all bearish signals in ascending index
order — but the concatenation need not be globally sorted. -/
theorem c4_per_pass_index_order (kt : KangarooTailAgent)
    (md : MACDDivergenceAgent) (df : List Bar) :
    (kt.detect_signals df).Pairwise (fun a b => a.idx < b.idx) ∧
    md.detect_signals df = bullishSignals md df ++ bearishSignals md df ∧
    (bullishSignals md df).Pairwise (fun a b => a.idx < b.idx) ∧
    (bearishSignals md df).Pairwise (fun a b => a.idx < b.idx) :=
  ⟨kangaroo_sorted kt df, rfl, bullishSignals_sorted md df,
    bearishSignals_sorted md df⟩

/-- Counterexample to C4 as stated: on `dfC` under `mdC` the divergence
pass returns the bullish signal at index 11 before the bearish signal at
index 5, so a detector pass is not always ascending by bar index. -/
theorem c4_counterexample :
    ¬ (MACDDivergenceAgent.detect_signals mdC dfC).Pairwise
        (fun a b => a.idx ≤ b.idx) := by
  rw [detectC]
  intro h
  have h1 := (List.pairwise_cons.mp h).1 bearSigC (by simp)
  norm_num [bullSigC, bearSigC] at h1

/-- A pair whose three gates all pass fires the bottom-divergence branch. -/
theorem pairSignal_bull_fires {self : MACDDivergenceAgent} {df : List Bar}
    {hist : List ℚ} {p : ℕ × ℕ}
    (hgap : self.min_gap_days ≤
      gapDays (nthBar df p.1).date (nthBar df p.2).date)
    (hpr : (nthBar df p.2).close < (nthBar df p.1).close)
    (hh : hist.getD p.1 0 < hist.getD p.2 0) :
    pairSignal self df hist true p =
      some { date := (nthBar df p.2).date, type := "bullish_divergence",
             price1 := (nthBar df p.1).close, price2 := (nthBar df p.2).close,
             macd_hist1 := hist.getD p.1 0, macd_hist2 := hist.getD p.2 0,
             idx := p.2 } := by
  rw [pairSignal_bull_eq, if_pos ⟨hgap, hpr, hh⟩]

/-- A pair whose three gates all pass fires the top-divergence branch. -/
theorem pairSignal_bear_fires {self : MACDDivergenceAgent} {df : List Bar}
    {hist : List ℚ} {p : ℕ × ℕ}
    (hgap : self.min_gap_days ≤
      gapDays (nthBar df p.1).date (nthBar df p.2).date)
    (hpr : (nthBar df p.1).close < (nthBar df p.2).close)
    (hh : hist.getD p.2 0 < hist.getD p.1 0) :
    pairSignal self df hist false p =
      some { date := (nthBar df p.2).date, type := "bearish_divergence",
             price1 := (nthBar df p.1).close, price2 := (nthBar df p.2).close,
             macd_hist1 := hist.getD p.1 0, macd_hist2 := hist.getD p.2 0,
             idx := p.2 } := by
  rw [pairSignal_bear_eq, if_pos ⟨hgap, hpr, hh⟩]

/-- C2: for every consecutive pair `(idx1, idx2)` of the ordered minima list
a bullish-divergence signal is emitted at `idx2` iff the day gap is at least
`min_gap_days`, the close makes a lower low, and the histogram makes a
higher low; symmetrically over consecutive maxima for bearish divergence. -/
theorem c2_consecutive_extrema_divergence_iff :
    ∀ (self : MACDDivergenceAgent) (df : List Bar) (j idx1 idx2 : ℕ),
      ((lowIdxs df).get? j = some idx1 →
        (lowIdxs df).get? (j + 1) = some idx2 →
        ((∃ s ∈ self.detect_signals df,
            s.type = "bullish_divergence" ∧ s.idx = idx2) ↔
          (self.min_gap_days ≤
              gapDays (nthBar df idx1).date (nthBar df idx2).date ∧
            (nthBar df idx2).close < (nthBar df idx1).close ∧
            (histSeries self df).getD idx1 0 <
              (histSeries self df).getD idx2 0))) ∧
      ((highIdxs df).get? j = some idx1 →
        (highIdxs df).get? (j + 1) = some idx2 →
        ((∃ s ∈ self.detect_signals df,
            s.type = "bearish_divergence" ∧ s.idx = idx2) ↔
          (self.min_gap_days ≤
              gapDays (nthBar df idx1).date (nthBar df idx2).date ∧
            (nthBar df idx1).close < (nthBar df idx2).close ∧
            (histSeries self df).getD idx2 0 <
              (histSeries self df).getD idx1 0))) := by
  intro self df j idx1 idx2
  constructor
  · intro h1 h2
    constructor
    · rintro ⟨s, hs, hty, hidx⟩
      rcases List.mem_append.mp hs with hb | hb
      · rcases List.mem_filterMap.mp hb with ⟨p, hp, hps⟩
        obtain ⟨hgap, hpr, hh, rfl⟩ := pairSignal_some_bull hps
        obtain ⟨k, hk1, hk2⟩ :=
          mem_zip_tail_iff.mp (by rwa [consecutivePairs] at hp)
        have hpl : (lowIdxs df).Pairwise (· < ·) := extrema_pairwise_lt _ _ _
        have hp2 : p.2 = idx2 := hidx
        rw [hp2] at hk2
        have hkj : k + 1 = j + 1 := get?_inj_of_pairwise_lt hpl hk2 h2
        have hk : k = j := by omega
        subst hk
        rw [hk1] at h1
        have hp1 : p.1 = idx1 := Option.some_inj.mp h1
        rw [hp1, hp2] at hgap hpr hh
        exact ⟨hgap, hpr, hh⟩
      · have hbe := mem_bearish_type self df s hb
        rw [hty] at hbe
        exact absurd hbe (by decide)
    · rintro ⟨hgap, hpr, hh⟩
      have hmem : ((idx1, idx2) : ℕ × ℕ) ∈ consecutivePairs (lowIdxs df) := by
        rw [consecutivePairs]
        exact mem_zip_tail_iff.mpr ⟨j, h1, h2⟩
      exact ⟨_, List.mem_append.mpr (Or.inl (List.mem_filterMap.mpr
        ⟨(idx1, idx2), hmem, pairSignal_bull_fires hgap hpr hh⟩)), rfl, rfl⟩
  · intro h1 h2
    constructor
    · rintro ⟨s, hs, hty, hidx⟩
      rcases List.mem_append.mp hs with hb | hb
      · have hbe := mem_bullish_type self df s hb
        rw [hty] at hbe
        exact absurd hbe (by decide)
      · rcases List.mem_filterMap.mp hb with ⟨p, hp, hps⟩
        obtain ⟨hgap, hpr, hh, rfl⟩ := pairSignal_some_bear hps
        obtain ⟨k, hk1, hk2⟩ :=
          mem_zip_tail_iff.mp (by rwa [consecutivePairs] at hp)
        have hpl : (highIdxs df).Pairwise (· < ·) := extrema_pairwise_lt _ _ _
        have hp2 : p.2 = idx2 := hidx
        rw [hp2] at hk2
        have hkj : k + 1 = j + 1 := get?_inj_of_pairwise_lt hpl hk2 h2
        have hk : k = j := by omega
        subst hk
        rw [hk1] at h1
        have hp1 : p.1 = idx1 := Option.some_inj.mp h1
        rw [hp1, hp2] at hgap hpr hh
        exact ⟨hgap, hpr, hh⟩
    · rintro ⟨hgap, hpr, hh⟩
      have hmem : ((idx1, idx2) : ℕ × ℕ) ∈ consecutivePairs (highIdxs df) := by
        rw [consecutivePairs]
        exact mem_zip_tail_iff.mpr ⟨j, h1, h2⟩
      exact ⟨_, List.mem_append.mpr (Or.inr (List.mem_filterMap.mpr
        ⟨(idx1, idx2), hmem, pairSignal_bear_fires hgap hpr hh⟩)), rfl, rfl⟩

/-- Witness for C2: the consecutive minima 6, 11 of `dfC` satisfy all three
conditions, and indeed a bullish-divergence signal is emitted at 11. -/
theorem c2_witness :
    (lowIdxs dfC).get? 1 = some 6 ∧ (lowIdxs dfC).get? 2 = some 11 ∧
    (∃ s ∈ MACDDivergenceAgent.detect_signals mdC dfC,
       s.type = "bullish_divergence" ∧ s.idx = 11) :=
  ⟨by rw [lowC]; rfl, by rw [lowC]; rfl,
   ((c2_consecutive_extrema_divergence_iff mdC dfC 1 6 11).1
      (by rw [lowC]; rfl) (by rw [lowC]; rfl)).mpr
     (by
       refine ⟨?_, ?_, ?_⟩
       · show mdC.min_gap_days ≤ gapDays (nthBar dfC 6).date (nthBar dfC 11).date
         norm_num [mdC, nthBar, dfC, gapDays, nsPerDay, Int.fdiv]
       · norm_num [nthBar, dfC]
       · rw [histC]
         norm_num)⟩

/-- C7: every signal of the divergence scan draws both of its paired indices
from the matching extrema list: a bullish signal's index and partner lie in
the minima list, a bearish signal's in the maxima list, with the partner
strictly earlier and supplying the signal's `price1`/`macd_hist1` fields. -/
theorem c7_signals_pair_extrema (self : MACDDivergenceAgent) (df : List Bar)
    (s : MSignal) (hs : s ∈ self.detect_signals df) :
    (s.type = "bullish_divergence" →
      s.idx ∈ lowIdxs df ∧ ∃ i1 ∈ lowIdxs df, i1 < s.idx ∧
        s.price1 = (nthBar df i1).close ∧
        s.macd_hist1 = (histSeries self df).getD i1 0) ∧
    (s.type = "bearish_divergence" →
      s.idx ∈ highIdxs df ∧ ∃ i1 ∈ highIdxs df, i1 < s.idx ∧
        s.price1 = (nthBar df i1).close ∧
        s.macd_hist1 = (histSeries self df).getD i1 0) := by
  rcases List.mem_append.mp hs with hb | hb
  · rcases List.mem_filterMap.mp hb with ⟨p, hp, hps⟩
    obtain ⟨hgap, hpr, hh, rfl⟩ := pairSignal_some_bull hps
    obtain ⟨k, hk1, hk2⟩ :=
      mem_zip_tail_iff.mp (by rwa [consecutivePairs] at hp)
    have hpl : (lowIdxs df).Pairwise (· < ·) := extrema_pairwise_lt _ _ _
    constructor
    · intro _
      exact ⟨List.get?_mem hk2, p.1, List.get?_mem hk1,
        get?_lt_of_pairwise_lt hpl (by omega) hk1 hk2, rfl, rfl⟩
    · intro hty
      exact absurd hty (by simp)
  · rcases List.mem_filterMap.mp hb with ⟨p, hp, hps⟩
    obtain ⟨hgap, hpr, hh, rfl⟩ := pairSignal_some_bear hps
    obtain ⟨k, hk1, hk2⟩ :=
      mem_zip_tail_iff.mp (by rwa [consecutivePairs] at hp)
    have hpl : (highIdxs df).Pairwise (· < ·) := extrema_pairwise_lt _ _ _
    constructor
    · intro hty
      exact absurd hty (by simp)
    · intro _
      exact ⟨List.get?_mem hk2, p.1, List.get?_mem hk1,
        get?_lt_of_pairwise_lt hpl (by omega) hk1 hk2, rfl, rfl⟩

/-- Witness for C7 at the concrete bullish signal of `dfC`. -/
theorem c7_witness :
    bullSigC ∈ MACDDivergenceAgent.detect_signals mdC dfC ∧
    (bullSigC.type = "bullish_divergence" →
      bullSigC.idx ∈ lowIdxs dfC ∧ ∃ i1 ∈ lowIdxs dfC, i1 < bullSigC.idx ∧
        bullSigC.price1 = (nthBar dfC i1).close ∧
        bullSigC.macd_hist1 = (histSeries mdC dfC).getD i1 0) :=
  ⟨by rw [detectC]; exact List.mem_cons_self _ _,
   (c7_signals_pair_extrema mdC dfC bullSigC
      (by rw [detectC]; exact List.mem_cons_self _ _)).1⟩

/-- Positional dating preserves the number of rows. -/
theorem assignDates_length (k : ℤ) (l : List Bar) :
    (assignDates k l).length = l.length := by
  induction l generalizing k with
  | nil => rfl
  | cons b bs ih => simp [assignDates, ih]

/-- Under positional dating the `date` value of row `i` is the base plus
`i`. -/
theorem nthBar_assignDates_date (k : ℤ) (l : List Bar) (i : ℕ)
    (hi : i < l.length) :
    (nthBar (assignDates k l) i).date = k + i := by
  induction l generalizing k i with
  | nil => simp at hi
  | cons b bs ih =>
    cases i with
    | zero => simp [assignDates, nthBar]
    | succ n =>
      have hn := ih (k + 1) n (by simpa using hi)
      show (nthBar ({ b with date := k } :: assignDates (k + 1) bs) (n + 1)).date
        = k + (n + 1 : ℕ)
      rw [nthBar, List.getD_cons_succ]
      rw [nthBar] at hn
      rw [hn]
      push_cast
      ring

/-- A nonnegative gap below one day floors to zero days. -/
theorem gapDays_eq_zero (d1 d2 : ℤ) (h1 : d1 ≤ d2) (h2 : d2 - d1 < nsPerDay) :
    gapDays d1 d2 = 0 := by
  rw [gapDays, Int.fdiv_eq_ediv _ (by norm_num [nsPerDay])]
  exact Int.ediv_eq_zero_of_lt (by omega) h2

/-- When every row's date is its index (in nanoseconds) and the table has at
most one nanosecond-day of rows, every consecutive extrema pair is rejected
by the calendar-gap gate. -/
theorem filterMap_pairs_empty (self : MACDDivergenceAgent) (rows : List Bar)
    (hist : List ℚ) (bullish : Bool) (idxs : List ℕ)
    (hpl : idxs.Pairwise (· < ·))
    (hbound : ∀ i ∈ idxs, i < rows.length)
    (hgap : 1 ≤ self.min_gap_days)
    (hlen : (rows.length : ℤ) ≤ nsPerDay)
    (hdates : ∀ i, i < rows.length → (nthBar rows i).date = (i : ℤ)) :
    (consecutivePairs idxs).filterMap (pairSignal self rows hist bullish) =
      [] := by
  rw [List.filterMap_eq_nil_iff]
  intro p hp
  obtain ⟨k, hk1, hk2⟩ := mem_zip_tail_iff.mp (by rwa [consecutivePairs] at hp)
  have h12 : p.1 < p.2 := get?_lt_of_pairwise_lt hpl (by omega) hk1 hk2
  have h2b : p.2 < rows.length := hbound p.2 (List.get?_mem hk2)
  have h1b : p.1 < rows.length := lt_trans h12 h2b
  have hzero : gapDays (nthBar rows p.1).date (nthBar rows p.2).date = 0 := by
    rw [hdates p.1 h1b, hdates p.2 h2b]
    apply gapDays_eq_zero
    · exact_mod_cast le_of_lt h12
    · have hc2 : (p.2 : ℤ) < (rows.length : ℤ) := by exact_mod_cast h2b
      have hc1 : (0 : ℤ) ≤ (p.1 : ℤ) := Int.ofNat_nonneg p.1
      omega
  cases bullish
  · rw [pairSignal_bear_eq, if_neg]
    intro hc
    have := hc.1
    rw [hzero] at this
    omega
  · rw [pairSignal_bull_eq, if_neg]
    intro hc
    have := hc.1
    rw [hzero] at this
    omega

/-- C9: on a table with no explicit date column the positional dates are
read as nanosecond timestamps, so (for any table of at most one
nanosecond-day of rows, i.e. any realizable length) every extrema pair's
day gap evaluates to 0 and a scan with `min_gap_days ≥ 1` emits no signals
at all. -/
theorem c9_no_date_column_no_signals (self : MACDDivergenceAgent)
    (t : RawTable) (hd : t.hasDate = false) (ho : t.hasOpen = true)
    (hh : t.hasHigh = true) (hl : t.hasLow = true) (hc : t.hasClose = true)
    (hv : t.hasVolume = true) (hgap : 1 ≤ self.min_gap_days)
    (hlen : (t.rows.length : ℤ) ≤ nsPerDay) :
    scanTable self t = Except.ok [] := by
  have hrows : prepare_df t = Except.ok (assignDates 0 t.rows) := by
    simp [prepare_df, missingColumn, ho, hh, hl, hc, hv, orderRows, hd]
  rw [scanTable, hrows]
  have hlen2 : (assignDates 0 t.rows).length = t.rows.length :=
    assignDates_length 0 t.rows
  have hdates : ∀ i, i < (assignDates 0 t.rows).length →
      (nthBar (assignDates 0 t.rows) i).date = (i : ℤ) := by
    intro i hi
    rw [hlen2] at hi
    simpa using nthBar_assignDates_date 0 t.rows i hi
  have hclen : (closeSeries (assignDates 0 t.rows)).length =
      (assignDates 0 t.rows).length := by
    simp [closeSeries]
  have hbull := filterMap_pairs_empty self (assignDates 0 t.rows)
    (histSeries self (assignDates 0 t.rows)) true
    (lowIdxs (assignDates 0 t.rows)) (extrema_pairwise_lt _ _ _)
    (fun i hi => by
      have hb := extrema_mem_lt _ _ _ i hi
      rwa [hclen] at hb)
    hgap (by rw [hlen2]; exact hlen) hdates
  have hbear := filterMap_pairs_empty self (assignDates 0 t.rows)
    (histSeries self (assignDates 0 t.rows)) false
    (highIdxs (assignDates 0 t.rows)) (extrema_pairwise_lt _ _ _)
    (fun i hi => by
      have hb := extrema_mem_lt _ _ _ i hi
      rwa [hclen] at hb)
    hgap (by rw [hlen2]; exact hlen) hdates
  simp only [MACDDivergenceAgent.detect_signals, bullishSignals,
    bearishSignals]
  rw [hbull, hbear]
  rfl

/-- Witness for C9: the two-row table without a date column yields an empty
scan under the default configuration. -/
theorem c9_witness :
    tNoDate.hasDate = false ∧
    1 ≤ ({} : MACDDivergenceAgent).min_gap_days ∧
    ((tNoDate.rows.length : ℤ) ≤ nsPerDay) ∧
    scanTable {} tNoDate = Except.ok [] :=
  ⟨rfl, by decide, by norm_num [tNoDate, nsPerDay],
   c9_no_date_column_no_signals {} tNoDate rfl rfl rfl rfl rfl rfl
     (by decide) (by norm_num [tNoDate, nsPerDay])⟩
